import Mathlib

/-!
Shallow embedding of `src/wifi.py` (a Wi-Fi discovery tool).

Python strings are modelled as `List Char` (`PyStr`), with structurally
recursive versions of the Python string primitives the program uses
(`str.split`, `str.strip`, `str.upper`, `str.startswith`, `int(...)`,
`':'.join`, `str.replace`), so that every definition evaluates inside the
kernel.  Python's `dict` is an association list updated with
overwrite-or-append semantics, Python's stable `sorted` is
`List.insertionSort`, and Python exceptions are `Except Unit`.
External effects enter as explicit inputs: for the scan subprocess,
`none` stands for a raised spawn error and `some (rc, lines)` for a
completed run with return code `rc` and output lines; for the OUI file,
the lines the iteration delivered arrive together with a flag recording
whether an exception (open or mid-read failure) ended the iteration.
-/

/-- Python strings, modelled as their character lists. -/
abbrev PyStr := List Char

/-- Coerce a Lean string literal to the `PyStr` model. -/
def pystr (s : String) : PyStr := s.data

/-- Split on a single separator character, keeping empty pieces:
Python `s.split(sep)` for a one-character `sep`. -/
def splitOnChar (sep : Char) : PyStr → List PyStr
  | [] => [[]]
  | c :: cs =>
    let r := splitOnChar sep cs
    if c = sep then [] :: r
    else
      match r with
      | [] => [[c]]
      | g :: gs => (c :: g) :: gs

/-- Split on a character predicate, keeping empty pieces. -/
def splitOnPred (p : Char → Bool) : PyStr → List PyStr
  | [] => [[]]
  | c :: cs =>
    let r := splitOnPred p cs
    if p c then [] :: r
    else
      match r with
      | [] => [[c]]
      | g :: gs => (c :: g) :: gs

/-- Python `s.split()` with no argument: split on whitespace runs,
discarding empty pieces. -/
def pySplitWs (s : PyStr) : List PyStr :=
  (splitOnPred Char.isWhitespace s).filter (· ≠ [])

/-- Python `s.strip()`: remove leading and trailing whitespace. -/
def pyStrip (s : PyStr) : PyStr :=
  ((s.dropWhile Char.isWhitespace).reverse.dropWhile Char.isWhitespace).reverse

/-- Python `s.upper()` for the ASCII letters that occur in MAC addresses. -/
def pyUpper (s : PyStr) : PyStr := s.map Char.toUpper

/-- Python `sep.join(parts)` for a one-character separator. -/
def pyJoin (sep : Char) (parts : List PyStr) : PyStr :=
  List.intercalate [sep] parts

/-- Python `s.startswith(pre)`. -/
def pyStartsWith (s pre : PyStr) : Bool := pre.isPrefixOf s

/-- Digit-string value: `some n` when the string is a nonempty run of
decimal digits, else `none`. -/
def digitsToNat? : PyStr → Option Nat
  | [] => none
  | cs =>
    if cs.all Char.isDigit then
      some (cs.foldl (fun acc c => acc * 10 + (c.toNat - 48)) 0)
    else none

/-- Python `int(s)`: strip whitespace, allow an optional sign, then require
a nonempty run of decimal digits; `none` models a raised `ValueError`. -/
def pyInt? (s : PyStr) : Option Int :=
  match pyStrip s with
  | '-' :: rest => (digitsToNat? rest).map (fun n => -(n : Int))
  | '+' :: rest => (digitsToNat? rest).map (fun n => (n : Int))
  | cs => (digitsToNat? cs).map (fun n => (n : Int))

/-- Decidable equality for `Except`, for evaluating the models on
concrete inputs. -/
instance {ε α : Type} [DecidableEq ε] [DecidableEq α] :
    DecidableEq (Except ε α)
  | Except.ok a, Except.ok b =>
    if h : a = b then isTrue (by rw [h])
    else isFalse (fun he => h (Except.ok.inj he))
  | Except.ok _, Except.error _ => isFalse (fun he => Except.noConfusion he)
  | Except.error _, Except.ok _ => isFalse (fun he => Except.noConfusion he)
  | Except.error e, Except.error f =>
    if h : e = f then isTrue (by rw [h])
    else isFalse (fun he => h (Except.error.inj he))

/-- Python `l[i]` on a list of strings: `IndexError` becomes `Except.error`. -/
def pyIndex (l : List PyStr) (i : Nat) : Except Unit PyStr :=
  match l.get? i with
  | some v => Except.ok v
  | none => Except.error ()

/-- Python `int(s)` as an exception-raising operation. -/
def pyIntE (s : PyStr) : Except Unit Int :=
  match pyInt? s with
  | some n => Except.ok n
  | none => Except.error ()

/-! ### OUI lookup table (`load_oui_database`, `get_manufacturer`) -/

/-- The OUI table: a Python `dict` as an association list with unique keys. -/
abbrev OuiDict := List (PyStr × PyStr)

/-- Python `d[k] = v`: overwrite the existing binding, else append. -/
def dictSet (d : OuiDict) (k v : PyStr) : OuiDict :=
  if d.any (fun p => p.1 = k) then
    d.map (fun p => if p.1 = k then (k, v) else p)
  else d ++ [(k, v)]

/-- Python `d.get(k)` without default. -/
def dictGet? : OuiDict → PyStr → Option PyStr
  | [], _ => none
  | (k1, v) :: rest, k => if k1 = k then some v else dictGet? rest k

/-- Python `d.get(k, dflt)`. -/
def dictGetD (d : OuiDict) (k dflt : PyStr) : PyStr :=
  (dictGet? d k).getD dflt

/-- One iteration of the line loop of `load_oui_database`: skip comments and
blank lines, skip lines with fewer than 3 whitespace-separated fields, and
otherwise bind the first field to the space-joined remaining fields. -/
def parse_oui_line (d : OuiDict) (line : PyStr) : OuiDict :=
  if pyStartsWith line (pystr "#") ∨ pyStrip line = [] then d
  else
    match pySplitWs line with
    | p0 :: _ :: p2 :: rest =>
      dictSet d (pyStrip p0) (pyStrip (pyJoin ' ' (p2 :: rest)))
    | _ => d

/-- Model of `load_oui_database`.  `readLines` is the list of lines the
file iteration delivered before it ended; `failed` records whether an
exception ended it (`true` with `readLines = []` models an open failure,
`true` with a nonempty `readLines` a failure partway through reading).
The handler only logs, so the dictionary accumulated from the delivered
lines is returned either way. -/
def load_oui_database (readLines : List PyStr) (_failed : Bool) : OuiDict :=
  readLines.foldl parse_oui_line []

/-- Model of `get_manufacturer`: join the first three colon-separated octet
groups, upper-case, and look up with fallback `"Unknown Manufacturer"`. -/
def get_manufacturer (mac : PyStr) (oui_dict : OuiDict) : PyStr :=
  dictGetD oui_dict (pyUpper (pyJoin ':' ((splitOnChar ':' mac).take 3)))
    (pystr "Unknown Manufacturer")

/-! ### Signal colors and the sparkline (`get_color_for_signal`,
`get_colored_block`, `generate_signal_graph`) -/

/-- The four Colorama colors the program uses for signal bands. -/
inductive PyColor
  | green
  | yellow
  | lightyellow
  | red
deriving DecidableEq

/-- Model of `get_color_for_signal`: top-down strict thresholds. -/
def get_color_for_signal (signal : Int) : PyColor :=
  if signal > 70 then PyColor.green
  else if signal > 50 then PyColor.yellow
  else if signal > 30 then PyColor.lightyellow
  else PyColor.red

/-- One rendered glyph position of the sparkline: a colored block
character, or a blank space.  The ANSI escape codes wrapped around the
block character in the source contribute no glyph positions. -/
inductive Cell
  | block (color : PyColor)
  | blank
deriving DecidableEq

/-- Model of `get_colored_block`: a colored block for positive signal,
a blank space otherwise. -/
def get_colored_block (signal : Int) : Cell :=
  if signal > 0 then Cell.block (get_color_for_signal signal) else Cell.blank

/-- `MAX_HISTORY` from the source. -/
def MAX_HISTORY : Nat := 10

/-- Model of `generate_signal_graph`: `MAX_HISTORY` blanks for an empty
history, otherwise one glyph per stored value. -/
def generate_signal_graph (rssi_values : List Int) : List Cell :=
  if rssi_values = [] then List.replicate MAX_HISTORY Cell.blank
  else rssi_values.map get_colored_block

/-! ### Bounded signal history (`rssi_history`, a `deque(maxlen=MAX_HISTORY)`) -/

/-- Model of `rssi_history[bssid].append(signal)` on one address's deque:
append, then evict from the left down to `MAX_HISTORY` elements. -/
def record (hist : List Int) (signal : Int) : List Int :=
  if MAX_HISTORY < (hist ++ [signal]).length then
    (hist ++ [signal]).drop ((hist ++ [signal]).length - MAX_HISTORY)
  else hist ++ [signal]

/-- Iterated `record`: one address's deque after a sequence of appends. -/
def recordAll (hist : List Int) (signals : List Int) : List Int :=
  signals.foldl record hist

/-- The last `n` elements of a list. -/
def lastN (n : Nat) (l : List Int) : List Int := l.drop (l.length - n)

/-! ### Scanner variants (`list_and_sort_wifi_networks_...`) -/

/-- A parsed access-point record of the Linux and macOS variants. -/
structure Network where
  ssid : PyStr
  bssid : PyStr
  signal : Int
  channel : PyStr
deriving DecidableEq

/-- Descending-by-signal comparison used by `sorted(..., key=lambda x:
x[SIGNAL], reverse=True)`: `a` may come before `b` iff `b`'s signal is at
most `a`'s. -/
def signalGE (a b : Network) : Prop := b.signal ≤ a.signal

instance : DecidableRel signalGE := fun a b => Int.decLe b.signal a.signal

instance : IsTotal Network signalGE := ⟨fun a b => Int.le_total b.signal a.signal⟩

instance : IsTrans Network signalGE := ⟨fun _ _ _ h1 h2 => le_trans h2 h1⟩

/-- Python's `sorted` is a stable sort; `List.insertionSort` is the stable
sort realizing the same ordering. -/
def sortNetworks (l : List Network) : List Network :=
  List.insertionSort signalGE l

/-- One line of the Linux `nmcli` parse loop: skip blank lines and lines
with fewer than 4 fields; a non-integer signal field falls back to 0. -/
def parse_linux_line (line : PyStr) : Option Network :=
  if pyStrip line = [] then none
  else
    match (pySplitWs line).map pyStrip with
    | ssid :: bssid :: sigS :: chan :: _ =>
      some { ssid := ssid, bssid := bssid, signal := (pyInt? sigS).getD 0,
             channel := chan }
    | _ => none

/-- One line of the macOS `airport` parse loop: indexing and the integer
parse of the signal field are unguarded, so they raise. -/
def parse_macos_line (line : PyStr) : Except Unit (Option Network) :=
  if pyStrip line = [] then Except.ok none
  else
    match pySplitWs line with
    | s0 :: s1 :: s2 :: rest =>
      match pyInt? s2 with
      | some n =>
        Except.ok (some { ssid := s0, bssid := s1, signal := n,
                          channel := rest.headD (pystr "N/A") })
      | none => Except.error ()
    | _ => Except.error ()

/-- One iteration of the macOS accumulation loop: a raised exception in
`parse_macos_line` propagates. -/
def macos_accum (acc : List Network) (line : PyStr) :
    Except Unit (List Network) :=
  match parse_macos_line line with
  | Except.ok (some n) => Except.ok (acc ++ [n])
  | Except.ok none => Except.ok acc
  | Except.error e => Except.error e

/-- The macOS parse loop over all lines; an exception escapes the loop and
discards every record accumulated so far. -/
def parse_macos_lines (lines : List PyStr) : Except Unit (List Network) :=
  lines.foldlM macos_accum []

/-- Model of `list_and_sort_wifi_networks_macos`; an exception inside the
`try` block (parse failure) is caught and yields `[]`. -/
def list_and_sort_wifi_networks_macos (scan : Option (Int × List PyStr)) :
    List Network :=
  match scan with
  | none => []
  | some (rc, lines) =>
    if rc = 0 then
      match parse_macos_lines (lines.drop 1) with
      | Except.ok networks => sortNetworks networks
      | Except.error _ => []
    else []

/-- A Windows access-point record: the loop variables start as `None`, so
every field is optional. -/
structure WinNetwork where
  ssid : Option PyStr
  bssid : Option PyStr
  signal : Option Int
  channel : Option PyStr
deriving DecidableEq

/-- The running state of the Windows block parser. -/
structure WinState where
  ssid : Option PyStr
  bssid : Option PyStr
  signal : Option Int
  channel : Option PyStr
  networks : List WinNetwork
deriving DecidableEq

/-- The initial Windows parser state: `ssid, bssid, signal, channel =
None, None, None, None` and no accumulated records. -/
def winInit : WinState :=
  { ssid := none, bssid := none, signal := none, channel := none,
    networks := [] }

/-- One line of the Windows `netsh` parse loop.  Each branch takes
`line.split(":")[1]`, which raises on a colon-free line; the `Signal`
branch strips a trailing `%` (Python `replace` removes every occurrence)
and parses an integer, unguarded. -/
def windows_step (st : WinState) (line0 : PyStr) : Except Unit WinState :=
  let line := pyStrip line0
  if pyStartsWith line (pystr "SSID") then do
    let v ← pyIndex (splitOnChar ':' line) 1
    return { st with ssid := some (pyStrip v) }
  else if pyStartsWith line (pystr "BSSID") then do
    let v ← pyIndex (splitOnChar ':' line) 1
    return { st with bssid := some (pyStrip v) }
  else if pyStartsWith line (pystr "Signal") then do
    let v ← pyIndex (splitOnChar ':' line) 1
    let n ← pyIntE ((pyStrip v).filter (· ≠ '%'))
    return { st with signal := some n }
  else if pyStartsWith line (pystr "Channel") then do
    let v ← pyIndex (splitOnChar ':' line) 1
    let ch := pyStrip v
    let rec0 : WinNetwork :=
      { ssid := st.ssid, bssid := st.bssid, signal := st.signal,
        channel := some ch }
    return { st with channel := some ch, networks := st.networks ++ [rec0] }
  else return st

/-- Descending-by-signal comparison on Windows records; on the lists it is
applied to, every `signal` is `some`, so the default is immaterial. -/
def winSignalGE (a b : WinNetwork) : Prop :=
  b.signal.getD 0 ≤ a.signal.getD 0

instance : DecidableRel winSignalGE :=
  fun a b => Int.decLe (b.signal.getD 0) (a.signal.getD 0)

instance : IsTotal WinNetwork winSignalGE :=
  ⟨fun a b => Int.le_total (b.signal.getD 0) (a.signal.getD 0)⟩

instance : IsTrans WinNetwork winSignalGE := ⟨fun _ _ _ h1 h2 => le_trans h2 h1⟩

/-- Python `sorted(networks, key=lambda x: x[SIGNAL], reverse=True)` on
Windows records: comparing a `None` signal with anything raises
`TypeError`, and every element of a list of two or more elements takes
part in at least one comparison. -/
def windows_sort (nets : List WinNetwork) : Except Unit (List WinNetwork) :=
  if nets.length ≤ 1 then Except.ok nets
  else if nets.all (fun n => n.signal.isSome) then
    Except.ok (List.insertionSort winSignalGE nets)
  else Except.error ()

/-- Model of `list_and_sort_wifi_networks_windows`; the parse loop and the
final `sorted` call both sit inside the `try` block. -/
def list_and_sort_wifi_networks_windows (scan : Option (Int × List PyStr)) :
    List WinNetwork :=
  match scan with
  | none => []
  | some (rc, lines) =>
    if rc = 0 then
      match (do
        let st ← lines.foldlM windows_step winInit
        windows_sort st.networks : Except Unit (List WinNetwork)) with
      | Except.ok l => l
      | Except.error _ => []
    else []

/-! ### Helper lemmas -/

/-- Length of the last-`n` suffix. -/
theorem length_lastN (n : Nat) (l : List Int) :
    (lastN n l).length = min n l.length := by
  simp [lastN]
  omega

/-- One `record` step keeps exactly the last `MAX_HISTORY` elements of the
appended sequence, as long as the invariant held before. -/
theorem record_eq_lastN (hist : List Int) (x : Int) :
    record hist x = lastN MAX_HISTORY (hist ++ [x]) := by
  unfold record lastN
  split
  · rfl
  · next h2 =>
    have h3 : (hist ++ [x]).length - MAX_HISTORY = 0 := by
      simp only [not_lt] at h2
      omega
    rw [h3, List.drop_zero]

/-- Taking a last-`n` suffix, appending, and taking the last-`n` suffix
again is the same as appending first. -/
theorem lastN_append (n : Nat) (l xs : List Int) :
    lastN n (lastN n l ++ xs) = lastN n (l ++ xs) := by
  unfold lastN
  rw [← List.drop_append_of_le_length (Nat.sub_le l.length n)]
  rw [List.drop_drop]
  congr 1
  simp only [List.length_drop, List.length_append]
  omega

/-- Iterated `record` keeps exactly the last `MAX_HISTORY` elements. -/
theorem recordAll_eq_lastN :
    ∀ (signals : List Int) (hist : List Int), hist.length ≤ MAX_HISTORY →
      recordAll hist signals = lastN MAX_HISTORY (hist ++ signals)
  | [], hist, h => by
    have h0 : hist.length - MAX_HISTORY = 0 := Nat.sub_eq_zero_of_le h
    simp [recordAll, lastN, h0]
  | x :: xs, hist, h => by
    have h1 : (record hist x).length ≤ MAX_HISTORY := by
      rw [record_eq_lastN hist x, length_lastN]
      omega
    have ih := recordAll_eq_lastN xs (record hist x) h1
    have hstep : recordAll hist (x :: xs) = recordAll (record hist x) xs := rfl
    rw [hstep, ih, record_eq_lastN hist x, lastN_append]
    congr 1
    simp

/-- A string starting with `"BSSID"` does not start with `"SSID"`. -/
theorem bssid_not_ssid (s : PyStr)
    (h : pyStartsWith s (pystr "BSSID") = true) :
    pyStartsWith s (pystr "SSID") = false := by
  match s with
  | [] => simp [pyStartsWith, pystr, List.isPrefixOf] at h
  | c :: t =>
    simp only [pyStartsWith, pystr] at h ⊢
    simp only [List.isPrefixOf, Bool.and_eq_true, beq_iff_eq] at h
    obtain ⟨hc, -⟩ := h
    subst hc
    simp [List.isPrefixOf]

/-- A string starting with `"Signal"` starts with neither `"SSID"` nor
`"BSSID"`. -/
theorem signal_not_ssid_bssid (s : PyStr)
    (h : pyStartsWith s (pystr "Signal") = true) :
    pyStartsWith s (pystr "SSID") = false ∧
    pyStartsWith s (pystr "BSSID") = false := by
  match s with
  | [] => simp [pyStartsWith, pystr, List.isPrefixOf] at h
  | [c] => simp [pyStartsWith, pystr, List.isPrefixOf] at h
  | c1 :: c2 :: t =>
    simp only [pyStartsWith, pystr] at h ⊢
    simp only [List.isPrefixOf, Bool.and_eq_true, beq_iff_eq] at h
    obtain ⟨h1, h2, -⟩ := h
    subst h1
    subst h2
    constructor <;> simp [List.isPrefixOf]

/-- A binding of an `Except` success reduces to the continuation. -/
theorem except_bind_ok {α β : Type} (a : α) (f : α → Except Unit β) :
    (Except.ok a >>= f) = f a := rfl

/-- A macOS line that is non-blank, has at least three fields and a
non-integer third field raises inside `parse_macos_line`. -/
theorem parse_macos_line_error (ml s0 s1 s2 : PyStr) (mrest : List PyStr)
    (hne : pyStrip ml ≠ [])
    (hsplit : pySplitWs ml = s0 :: s1 :: s2 :: mrest)
    (hbad : pyInt? s2 = none) :
    parse_macos_line ml = Except.error () := by
  unfold parse_macos_line
  rw [if_neg hne, hsplit]
  dsimp only
  rw [hbad]

/-- An exception raised at some line of the macOS loop escapes with the
accumulated records discarded. -/
theorem parse_macos_lines_error (pre post : List PyStr) (ml : PyStr)
    (acc : List Network)
    (hpre : parse_macos_lines pre = Except.ok acc)
    (hml : parse_macos_line ml = Except.error ()) :
    parse_macos_lines (pre ++ ml :: post) = Except.error () := by
  unfold parse_macos_lines at hpre ⊢
  rw [List.foldlM_append, hpre, except_bind_ok, List.foldlM_cons]
  rw [show macos_accum acc ml = Except.error () from by
    unfold macos_accum
    rw [hml]]
  rfl

/-- A `Signal` line whose value neither strips nor de-percents to an
integer raises inside `windows_step`. -/
theorem windows_step_signal_error (st : WinState) (wl : PyStr)
    (q0 q1 : PyStr) (qrest : List PyStr)
    (hsig : pyStartsWith (pyStrip wl) (pystr "Signal") = true)
    (hsplit : splitOnChar ':' (pyStrip wl) = q0 :: q1 :: qrest)
    (hbad : pyInt? ((pyStrip q1).filter (· ≠ '%')) = none) :
    windows_step st wl = Except.error () := by
  obtain ⟨h1, h2⟩ := signal_not_ssid_bssid _ hsig
  unfold windows_step
  rw [if_neg (by simp [h1]), if_neg (by simp [h2]), if_pos hsig, hsplit]
  rw [show pyIndex (q0 :: q1 :: qrest) 1 = Except.ok q1 from rfl,
    except_bind_ok]
  rw [show pyIntE ((pyStrip q1).filter (· ≠ '%')) = Except.error () from by
    unfold pyIntE
    rw [hbad]]
  rfl

/-- An exception raised at some line of the Windows loop escapes with the
accumulated records discarded. -/
theorem windows_fold_error (pre post : List PyStr) (wl : PyStr)
    (st : WinState)
    (hpre : pre.foldlM windows_step winInit = Except.ok st)
    (hwl : windows_step st wl = Except.error ()) :
    (pre ++ wl :: post).foldlM windows_step winInit = Except.error () := by
  rw [List.foldlM_append, hpre, except_bind_ok, List.foldlM_cons, hwl]
  rfl

/-! ### Claim theorems -/

/-- C1: for every uppercase 3-octet colon-separated key bound in the OUI
table and every hardware address whose first three colon-separated octet
groups equal that key up to letter case, `get_manufacturer` returns
exactly the bound manufacturer. -/
theorem C1_lookup_present_case_insensitive (oui_dict : OuiDict)
    (key m mac : PyStr)
    (hkey : pyUpper key = key)
    (hmem : dictGet? oui_dict key = some m)
    (hpre : pyUpper (pyJoin ':' ((splitOnChar ':' mac).take 3)) =
      pyUpper key) :
    get_manufacturer mac oui_dict = m := by
  unfold get_manufacturer dictGetD
  rw [hpre, hkey, hmem]
  rfl

/-- Witness for C1: a lower-case scanned address against an upper-case
table entry. -/
theorem C1_witness :
    get_manufacturer (pystr "aa:bb:cc:11:22:33")
      [(pystr "AA:BB:CC", pystr "Test Corp")] = pystr "Test Corp" :=
  C1_lookup_present_case_insensitive
    [(pystr "AA:BB:CC", pystr "Test Corp")]
    (pystr "AA:BB:CC") (pystr "Test Corp") (pystr "aa:bb:cc:11:22:33")
    (by decide) (by decide) (by decide)

/-- C8: for every hardware address whose upper-cased 3-octet group key is
absent from the OUI table, `get_manufacturer` returns the literal
fallback string. -/
theorem C8_lookup_absent_fallback (oui_dict : OuiDict) (mac : PyStr)
    (h : dictGet? oui_dict
      (pyUpper (pyJoin ':' ((splitOnChar ':' mac).take 3))) = none) :
    get_manufacturer mac oui_dict = pystr "Unknown Manufacturer" := by
  unfold get_manufacturer dictGetD
  rw [h]
  rfl

/-- Witness for C8: an address whose vendor is not in the table. -/
theorem C8_witness :
    get_manufacturer (pystr "11:22:33:44:55:66")
      [(pystr "AA:BB:CC", pystr "Test Corp")] =
      pystr "Unknown Manufacturer" :=
  C8_lookup_absent_fallback [(pystr "AA:BB:CC", pystr "Test Corp")]
    (pystr "11:22:33:44:55:66") (by decide)

/-- C2 counterexample: after one recorded sample the sparkline has one
glyph position, not `MAX_HISTORY`. -/
theorem C2_counterexample :
    (generate_signal_graph [50]).length ≠ MAX_HISTORY := by decide

/-- C2 (amended): the sparkline has exactly `MAX_HISTORY` glyph positions
only when the history is empty; otherwise it has exactly one glyph per
recorded sample, with no blank padding of the unfilled capacity slots. -/
theorem C2_amended_sparkline_length (rssi_values : List Int) :
    (generate_signal_graph rssi_values).length =
      if rssi_values = [] then MAX_HISTORY else rssi_values.length := by
  by_cases h : rssi_values = [] <;> simp [generate_signal_graph, h]

/-- C3: starting from an empty history, the recorded sequence never
exceeds `MAX_HISTORY` elements, and once more than `MAX_HISTORY` samples
have been appended it holds exactly the most recent `MAX_HISTORY` of them
in arrival order. -/
theorem C3_bounded_history (signals : List Int) :
    (recordAll [] signals).length ≤ MAX_HISTORY ∧
    (MAX_HISTORY < signals.length →
      recordAll [] signals =
        signals.drop (signals.length - MAX_HISTORY)) := by
  have h := recordAll_eq_lastN signals [] (by simp)
  simp only [List.nil_append] at h
  constructor
  · rw [h, length_lastN]
    omega
  · intro _
    rw [h]
    rfl

/-- Witness for C3: twelve samples leave the ten most recent. -/
theorem C3_witness :
    (recordAll [] [1, 2, 3, 4, 5, 6, 7, 8, 9, 10, 11, 12]).length ≤
      MAX_HISTORY ∧
    recordAll [] [1, 2, 3, 4, 5, 6, 7, 8, 9, 10, 11, 12] =
      [1, 2, 3, 4, 5, 6, 7, 8, 9, 10, 11, 12].drop
        ([1, 2, 3, 4, 5, 6, 7, 8, 9, 10, 11, 12].length - MAX_HISTORY) :=
  ⟨(C3_bounded_history [1, 2, 3, 4, 5, 6, 7, 8, 9, 10, 11, 12]).1,
   (C3_bounded_history [1, 2, 3, 4, 5, 6, 7, 8, 9, 10, 11, 12]).2
     (by decide)⟩

/-- C4 counterexample: a macOS scan line and a Windows `Signal` line whose
signal field is not an integer do not yield a record with signal 0; the
raised `ValueError` aborts the whole cycle's record list, which comes
back empty in both variants. -/
theorem C4_counterexample :
    pyInt? (pystr "high") = none ∧
    list_and_sort_wifi_networks_macos
      (some (0, [pystr "SSID BSSID RSSI CHANNEL",
                 pystr "MyNet aa:bb:cc:dd:ee:ff high 6"])) = [] ∧
    list_and_sort_wifi_networks_windows
      (some (0, [pystr "SSID 1 : MyNet",
                 pystr "    BSSID 1 : aa:bb:cc:dd:ee:ff",
                 pystr "    Signal : high%",
                 pystr "    Channel : 11"])) = [] := by
  decide

/-- C4 (amended): only the Linux variant maps a non-integer signal field
to a record with signal 0; the macOS and Windows variants parse the
field unguarded, so the raised exception escapes to the variant's outer
handler and the whole cycle's record list comes back empty. -/
theorem C4_amended_parse_robustness
    (line ssid bssid sigS chan : PyStr) (rest : List PyStr)
    (hne : pyStrip line ≠ [])
    (hsplit : (pySplitWs line).map pyStrip =
      ssid :: bssid :: sigS :: chan :: rest)
    (hbad : pyInt? sigS = none)
    (hdr ml s0 s1 s2 : PyStr) (mrest mpre mpost : List PyStr)
    (macc : List Network)
    (hmne : pyStrip ml ≠ [])
    (hmsplit : pySplitWs ml = s0 :: s1 :: s2 :: mrest)
    (hmbad : pyInt? s2 = none)
    (hmpre : parse_macos_lines mpre = Except.ok macc)
    (wl q0 q1 : PyStr) (qrest : List PyStr) (wpre wpost : List PyStr)
    (wst : WinState)
    (hwsig : pyStartsWith (pyStrip wl) (pystr "Signal") = true)
    (hwsplit : splitOnChar ':' (pyStrip wl) = q0 :: q1 :: qrest)
    (hwbad : pyInt? ((pyStrip q1).filter (· ≠ '%')) = none)
    (hwpre : wpre.foldlM windows_step winInit = Except.ok wst) :
    parse_linux_line line =
      some { ssid := ssid, bssid := bssid, signal := 0, channel := chan } ∧
    parse_macos_line ml = Except.error () ∧
    list_and_sort_wifi_networks_macos
      (some (0, hdr :: (mpre ++ ml :: mpost))) = [] ∧
    windows_step wst wl = Except.error () ∧
    list_and_sort_wifi_networks_windows
      (some (0, wpre ++ wl :: wpost)) = [] := by
  have hmac := parse_macos_line_error ml s0 s1 s2 mrest hmne hmsplit hmbad
  have hwin := windows_step_signal_error wst wl q0 q1 qrest hwsig hwsplit hwbad
  refine ⟨?_, hmac, ?_, hwin, ?_⟩
  · unfold parse_linux_line
    rw [if_neg hne, hsplit]
    dsimp only
    rw [hbad]
    rfl
  · unfold list_and_sort_wifi_networks_macos
    dsimp only
    rw [if_pos rfl]
    rw [show (hdr :: (mpre ++ ml :: mpost)).drop 1 = mpre ++ ml :: mpost
      from rfl]
    rw [parse_macos_lines_error mpre mpost ml macc hmpre hmac]
  · unfold list_and_sort_wifi_networks_windows
    dsimp only
    rw [if_pos rfl]
    rw [windows_fold_error wpre wpost wl wst hwpre hwin]
    rfl

/-- Witness for C4 (amended): one malformed line per platform variant. -/
theorem C4_witness :
    parse_linux_line (pystr "NetB 11:22:33:44:55:66 high 11") =
      some { ssid := pystr "NetB", bssid := pystr "11:22:33:44:55:66",
             signal := 0, channel := pystr "11" } ∧
    parse_macos_line (pystr "MyNet aa:bb:cc:dd:ee:ff high 6") =
      Except.error () ∧
    list_and_sort_wifi_networks_macos
      (some (0, pystr "SSID BSSID RSSI CHANNEL" ::
        ([] ++ pystr "MyNet aa:bb:cc:dd:ee:ff high 6" :: []))) = [] ∧
    windows_step winInit (pystr "    Signal : high%") = Except.error () ∧
    list_and_sort_wifi_networks_windows
      (some (0, [] ++ pystr "    Signal : high%" :: [])) = [] :=
  C4_amended_parse_robustness
    (pystr "NetB 11:22:33:44:55:66 high 11")
    (pystr "NetB") (pystr "11:22:33:44:55:66") (pystr "high") (pystr "11")
    [] (by decide) (by decide) (by decide)
    (pystr "SSID BSSID RSSI CHANNEL")
    (pystr "MyNet aa:bb:cc:dd:ee:ff high 6")
    (pystr "MyNet") (pystr "aa:bb:cc:dd:ee:ff") (pystr "high") [pystr "6"]
    [] [] [] (by decide) (by decide) (by decide) (by decide)
    (pystr "    Signal : high%")
    (pystr "Signal ") (pystr " high%") [] [] [] winInit
    (by decide) (by decide) (by decide) (by decide)

/-- C5: on a Windows `BSSID` line, the value stored for the hardware
address is the stripped text between the first and the second colon of
the line, so a full colon-separated address is truncated to its first
octet group. -/
theorem C5_windows_bssid_truncation (st : WinState) (line : PyStr)
    (p0 p1 p2 : PyStr) (rest : List PyStr)
    (h : pyStartsWith (pyStrip line) (pystr "BSSID") = true)
    (hsplit : splitOnChar ':' (pyStrip line) = p0 :: p1 :: p2 :: rest) :
    windows_step st line = Except.ok { st with bssid := some (pyStrip p1) } := by
  unfold windows_step
  rw [if_neg (by simp [bssid_not_ssid _ h]), if_pos h, hsplit]
  rfl

/-- Witness for C5: `BSSID 1 : aa:bb:cc:dd:ee:ff` stores only `aa`. -/
theorem C5_witness :
    windows_step winInit (pystr "    BSSID 1 : aa:bb:cc:dd:ee:ff") =
      Except.ok { winInit with
        bssid := some (pyStrip (pystr " aa")) } :=
  C5_windows_bssid_truncation winInit
    (pystr "    BSSID 1 : aa:bb:cc:dd:ee:ff")
    (pystr "BSSID 1 ") (pystr " aa") (pystr "bb")
    [pystr "cc", pystr "dd", pystr "ee", pystr "ff"]
    (by decide) (by decide)

/-- C6: the color bands are evaluated top-down with strict thresholds:
71 is strong (green), 70 and 51 are good (yellow), 50 is fair
(light yellow), and 0 — like every value at most 30 — is weak (red). -/
theorem C6_color_banding (s : Int) (h : s ≤ 30) :
    get_color_for_signal 71 = PyColor.green ∧
    get_color_for_signal 70 = PyColor.yellow ∧
    get_color_for_signal 51 = PyColor.yellow ∧
    get_color_for_signal 50 = PyColor.lightyellow ∧
    get_color_for_signal 0 = PyColor.red ∧
    get_color_for_signal s = PyColor.red := by
  refine ⟨by decide, by decide, by decide, by decide, by decide, ?_⟩
  unfold get_color_for_signal
  rw [if_neg (by omega), if_neg (by omega), if_neg (by omega)]

/-- Witness for C6, at signal 0. -/
theorem C6_witness :
    get_color_for_signal 71 = PyColor.green ∧
    get_color_for_signal 70 = PyColor.yellow ∧
    get_color_for_signal 51 = PyColor.yellow ∧
    get_color_for_signal 50 = PyColor.lightyellow ∧
    get_color_for_signal 0 = PyColor.red ∧
    get_color_for_signal 0 = PyColor.red :=
  C6_color_banding 0 (by decide)

/-- C7: every variant sorts its parsed records by signal descending with a
stable sort: the Linux and macOS ordering (`sortNetworks`) is sorted and a
permutation of its input, equal-signal records keep their relative input
order, the signals [10, 90, 50] come out in the order [90, 50, 10], and
the Windows ordering enjoys the same sortedness and permutation facts. -/
theorem C7_sorted_descending_stable (l : List Network) (a b : Network)
    (hab : a.signal = b.signal) (hsub : List.Sublist [a, b] l) :
    List.Sorted signalGE (sortNetworks l) ∧
    List.Perm (sortNetworks l) l ∧
    List.Sublist [a, b] (sortNetworks l) ∧
    (∀ n10 n90 n50 : Network, n10.signal = 10 → n90.signal = 90 →
      n50.signal = 50 → sortNetworks [n10, n90, n50] = [n90, n50, n10]) ∧
    (∀ w : List WinNetwork,
      List.Sorted winSignalGE (List.insertionSort winSignalGE w) ∧
      List.Perm (List.insertionSort winSignalGE w) w) ∧
    (∀ nets res : List WinNetwork, windows_sort nets = Except.ok res →
      List.Sorted winSignalGE res ∧ List.Perm res nets ∧
      (∀ wa wb : WinNetwork, wa.signal = wb.signal →
        List.Sublist [wa, wb] nets → List.Sublist [wa, wb] res)) := by
  refine ⟨List.sorted_insertionSort signalGE l,
    List.perm_insertionSort signalGE l,
    List.pair_sublist_insertionSort hab.ge hsub,
    ?_,
    fun w => ⟨List.sorted_insertionSort winSignalGE w,
      List.perm_insertionSort winSignalGE w⟩,
    ?_⟩
  · intro n10 n90 n50 h10 h90 h50
    simp [sortNetworks, signalGE, h10, h90, h50]
  · intro nets res hok
    unfold windows_sort at hok
    by_cases hlen : nets.length ≤ 1
    · rw [if_pos hlen] at hok
      obtain rfl : nets = res := Except.ok.inj hok
      refine ⟨?_, List.Perm.refl nets, fun wa wb hw hsub => hsub⟩
      match nets, hlen with
      | [], _ => exact List.sorted_nil
      | [x], _ => exact List.sorted_singleton x
    · rw [if_neg hlen] at hok
      by_cases hsome : nets.all (fun n => n.signal.isSome)
      · rw [if_pos hsome] at hok
        obtain rfl : List.insertionSort winSignalGE nets = res :=
          Except.ok.inj hok
        exact ⟨List.sorted_insertionSort winSignalGE nets,
          List.perm_insertionSort winSignalGE nets,
          fun wa wb hw hsub =>
            List.pair_sublist_insertionSort (le_of_eq (by rw [hw])) hsub⟩
      · rw [if_neg hsome] at hok
        exact absurd hok (fun he => Except.noConfusion he)

/-- Witness for C7: two equal-signal records in a three-record scan. -/
theorem C7_witness :
    List.Sorted signalGE (sortNetworks
      [⟨pystr "A", pystr "a", 50, pystr "1"⟩,
       ⟨pystr "M", pystr "m", 90, pystr "6"⟩,
       ⟨pystr "B", pystr "b", 50, pystr "1"⟩]) ∧
    List.Perm (sortNetworks
      [⟨pystr "A", pystr "a", 50, pystr "1"⟩,
       ⟨pystr "M", pystr "m", 90, pystr "6"⟩,
       ⟨pystr "B", pystr "b", 50, pystr "1"⟩])
      [⟨pystr "A", pystr "a", 50, pystr "1"⟩,
       ⟨pystr "M", pystr "m", 90, pystr "6"⟩,
       ⟨pystr "B", pystr "b", 50, pystr "1"⟩] ∧
    List.Sublist
      [⟨pystr "A", pystr "a", 50, pystr "1"⟩,
       ⟨pystr "B", pystr "b", 50, pystr "1"⟩]
      (sortNetworks
        [⟨pystr "A", pystr "a", 50, pystr "1"⟩,
         ⟨pystr "M", pystr "m", 90, pystr "6"⟩,
         ⟨pystr "B", pystr "b", 50, pystr "1"⟩]) ∧
    (∀ n10 n90 n50 : Network, n10.signal = 10 → n90.signal = 90 →
      n50.signal = 50 → sortNetworks [n10, n90, n50] = [n90, n50, n10]) ∧
    (∀ w : List WinNetwork,
      List.Sorted winSignalGE (List.insertionSort winSignalGE w) ∧
      List.Perm (List.insertionSort winSignalGE w) w) ∧
    (∀ nets res : List WinNetwork, windows_sort nets = Except.ok res →
      List.Sorted winSignalGE res ∧ List.Perm res nets ∧
      (∀ wa wb : WinNetwork, wa.signal = wb.signal →
        List.Sublist [wa, wb] nets → List.Sublist [wa, wb] res)) :=
  C7_sorted_descending_stable
    [⟨pystr "A", pystr "a", 50, pystr "1"⟩,
     ⟨pystr "M", pystr "m", 90, pystr "6"⟩,
     ⟨pystr "B", pystr "b", 50, pystr "1"⟩]
    ⟨pystr "A", pystr "a", 50, pystr "1"⟩
    ⟨pystr "B", pystr "b", 50, pystr "1"⟩
    rfl (by decide)

/-- C9 counterexample: a read failure after one well-formed line leaves
the table built from that line, not the empty table. -/
theorem C9_counterexample :
    load_oui_database [pystr "AA:BB:CC Sh Test Corp"] true ≠ [] := by
  decide

/-- C9 (amended): during the OUI database load, a non-comment, non-blank
line with fewer than three whitespace-separated fields contributes no
entry; a file-open failure (no lines read) yields the empty table; and a
failure partway through reading keeps the table accumulated from the
lines already read instead of aborting or emptying it. -/
theorem C9_amended_oui_load (d : OuiDict) (line : PyStr)
    (hc : pyStartsWith line (pystr "#") = false)
    (hb : pyStrip line ≠ [])
    (hf : (pySplitWs line).length < 3) :
    parse_oui_line d line = d ∧
    (∀ b : Bool, load_oui_database [] b = []) ∧
    (∀ readLines : List PyStr,
      load_oui_database readLines true =
        load_oui_database readLines false) := by
  refine ⟨?_, fun b => rfl, fun readLines => rfl⟩
  unfold parse_oui_line
  rw [if_neg (by simp [hc, hb])]
  rcases hsp : pySplitWs line with - | ⟨p0, - | ⟨p1, - | ⟨p2, rest⟩⟩⟩
  · rfl
  · rfl
  · rfl
  · rw [hsp] at hf
    simp at hf
    omega

/-- Witness for C9: a two-field line is skipped. -/
theorem C9_witness :
    parse_oui_line [] (pystr "AA:BB:CC ShortOnly") = [] ∧
    (∀ b : Bool, load_oui_database [] b = []) ∧
    (∀ readLines : List PyStr,
      load_oui_database readLines true =
        load_oui_database readLines false) :=
  C9_amended_oui_load [] (pystr "AA:BB:CC ShortOnly")
    (by decide) (by decide) (by decide)

